import Mathlib

/-!
Formal model of the FleetDiscordIntegration online-time reconstruction and
reconciliation engine.

The definitions below are shallow embeddings of the Python functions in
`src/pythonProject/src/utils/database.py` (order-based duration estimators,
state-log hour calculators, per-query reconciliation in
`get_driver_stats_by_date_range`) and `src/pythonProject/src/bot/cogs/fleet.py`
(window resolution in `_show_driver_stats`, date validation in
`check_date_limits`, the 31-day state-log cutoff).  Python numbers are modelled
with `Int` (epoch-second timestamps, meter distances) and `ℚ` (durations and
hours once Python switches to float arithmetic); Python's builtin `round`
(banker's rounding) is modelled by `pyRound`; nullable columns and `None`
fields are modelled with `Option`.
-/

/-- Python's builtin `round` to an integer: round half to even. -/
def pyRound (q : ℚ) : Int :=
  let f := ⌊q⌋
  let r := q - (f : ℚ)
  if r < 1/2 then f else if 1/2 < r then f + 1 else if f % 2 = 0 then f else f + 1

/-- Python's `round(x, 2)`: round to two decimal places, half to even. -/
def round2 (q : ℚ) : ℚ := ((pyRound (q * 100) : ℚ)) / 100

theorem pyRound_intCast (z : Int) : pyRound (z : ℚ) = z := by
  simp [pyRound]

theorem pyRound_eq_low {q : ℚ} {z : Int} (hf : ⌊q⌋ = z) (hr : q - (z : ℚ) < 1/2) :
    pyRound q = z := by
  simp only [pyRound, hf]
  rw [if_pos hr]

theorem pyRound_eq_high {q : ℚ} {z : Int} (hf : ⌊q⌋ = z) (hr : 1/2 < q - (z : ℚ)) :
    pyRound q = z + 1 := by
  simp only [pyRound, hf]
  rw [if_neg (by linarith), if_pos hr]

theorem pyRound_nonneg {q : ℚ} (h : 0 ≤ q) : 0 ≤ pyRound q := by
  have hf : (0 : Int) ≤ ⌊q⌋ := Int.floor_nonneg.mpr h
  simp only [pyRound]
  split
  · exact hf
  · split
    · omega
    · split
      · exact hf
      · omega

theorem round2_nonneg {q : ℚ} (h : 0 ≤ q) : 0 ≤ round2 q := by
  have : (0 : Int) ≤ pyRound (q * 100) := pyRound_nonneg (by positivity)
  have : (0 : ℚ) ≤ (pyRound (q * 100) : ℚ) := by exact_mod_cast this
  simp only [round2]
  positivity

/-- A rational that is a whole number of hundredths (the shape of every
Python `round(x, 2)` result in the model). -/
def IsCent (q : ℚ) : Prop := ∃ z : Int, q = (z : ℚ) / 100

theorem isCent_round2 (q : ℚ) : IsCent (round2 q) := ⟨pyRound (q * 100), rfl⟩

theorem isCent_zero : IsCent 0 := ⟨0, by norm_num⟩

theorem round2_add_cents {a b : ℚ} (ha : IsCent a) (hb : IsCent b) :
    round2 (a + b) = a + b := by
  obtain ⟨za, rfl⟩ := ha
  obtain ⟨zb, rfl⟩ := hb
  have h : ((za : ℚ) / 100 + (zb : ℚ) / 100) * 100 = ((za + zb : Int) : ℚ) := by
    push_cast
    ring
  rw [round2, h, pyRound_intCast]
  push_cast
  ring

/-- A finished-trip record as stored in the `orders` table: accept/finish
epoch-second timestamps (`NULL`-able) and the ride distance in meters
(`NULL`-able).  Only the fields used by the duration estimators are kept. -/
structure Trip where
  accepted : Option Int
  finished : Option Int
  distance : Option Int
deriving DecidableEq

/-- `list.sort(key=...)` / SQL `ORDER BY key`: sort by an integer key. -/
def sortByKey {α : Type} (key : α → Int) (l : List α) : List α :=
  List.insertionSort (fun x y => key x ≤ key y) l

theorem sortByKey_perm {α : Type} (key : α → Int) (l : List α) :
    (sortByKey key l).Perm l :=
  List.perm_insertionSort _ l

theorem sortByKey_pairwise {α : Type} (key : α → Int) (l : List α) :
    List.Pairwise (fun x y => key x ≤ key y) (sortByKey key l) := by
  haveI : IsTotal α (fun x y => key x ≤ key y) := ⟨fun a b => le_total _ _⟩
  haveI : IsTrans α (fun x y => key x ≤ key y) :=
    ⟨fun _ _ _ hab hbc => le_trans hab hbc⟩
  exact List.sorted_insertionSort _ l

/-- The SQL filter shared by both order-based estimators:
`order_accepted_timestamp IS NOT NULL AND order_finished_timestamp IS NOT NULL`
(driver, status and window filters are part of selecting the input list). -/
def ordersWithTimestamps (trips : List Trip) : List Trip :=
  trips.filter (fun t => t.accepted.isSome && t.finished.isSome)

/-- Per-trip body of `calculate_active_hours_from_orders`
(database.py:1095-1125): the guard `accepted and finished and
finished > accepted` (Python truthiness: a zero timestamp is falsy), then the
distance-based plausibility clamp into `[min_time, max_time]` when
`distance and distance > 0`, otherwise the flat two-hour cap. -/
def clampedRideSeconds (a f : Int) (dist : Option Int) : ℚ :=
  if a ≠ 0 ∧ f ≠ 0 ∧ a < f then
    let raw : ℚ := ((f - a : Int) : ℚ)
    match dist with
    | some d =>
      if 0 < d then
        let dkm : ℚ := (d : ℚ) / 1000
        let tmin : ℚ := dkm / 60 * 3600
        let tmax : ℚ := dkm / 10 * 3600
        if raw < tmin then tmin else if tmax < raw then tmax else raw
      else min raw 7200
    | none => min raw 7200
  else 0

/-- `total_active_seconds` accumulated by `calculate_active_hours_from_orders`
over the fetched (timestamped, accepted-ordered) orders. -/
def calculate_active_seconds (trips : List Trip) : ℚ :=
  ((sortByKey (fun t => t.accepted.getD 0) (ordersWithTimestamps trips)).map
    (fun t => clampedRideSeconds (t.accepted.getD 0) (t.finished.getD 0) t.distance)).sum

/-- `calculate_active_hours_from_orders` (database.py:1057-1135): returns 0.0
with no fetched orders, otherwise converts `total_active_seconds` to whole
minutes (`round(seconds / 60)`) and then to hours rounded to two decimals. -/
def calculate_active_hours_from_orders (trips : List Trip) : ℚ :=
  if ordersWithTimestamps trips = [] then 0
  else round2 ((pyRound (calculate_active_seconds trips / 60) : ℚ) / 60)

/-- Contribution of a single trip to `total_active_seconds`, including the
trips the SQL `IS NOT NULL` filter drops (they contribute nothing). -/
def tripActiveSeconds (t : Trip) : ℚ :=
  if t.accepted.isSome && t.finished.isSome then
    clampedRideSeconds (t.accepted.getD 0) (t.finished.getD 0) t.distance
  else 0

theorem sum_filter_tripActive (trips : List Trip) :
    ((ordersWithTimestamps trips).map
      (fun t => clampedRideSeconds (t.accepted.getD 0) (t.finished.getD 0) t.distance)).sum
      = (trips.map tripActiveSeconds).sum := by
  induction trips with
  | nil => simp [ordersWithTimestamps]
  | cons t ts ih =>
    simp only [ordersWithTimestamps] at ih ⊢
    cases hb : (t.accepted.isSome && t.finished.isSome) with
    | true =>
      simp only [List.filter_cons, hb, if_true, List.map_cons, List.sum_cons, ih]
      simp [tripActiveSeconds, hb]
    | false =>
      simp only [List.filter_cons, hb, List.map_cons, List.sum_cons, ih]
      simp [tripActiveSeconds, hb]
      exact ih

theorem calculate_active_seconds_eq (trips : List Trip) :
    calculate_active_seconds trips = (trips.map tripActiveSeconds).sum := by
  unfold calculate_active_seconds
  rw [List.Perm.sum_eq (List.Perm.map _ (sortByKey_perm _ _))]
  exact sum_filter_tripActive trips

/-- Gap classification in `calculate_waiting_hours_from_orders`
(database.py:1167-1180): positive gaps up to 30 minutes count in full, gaps of
30-60 minutes count a flat 30 minutes, anything longer counts nothing. -/
def gapWaitingSeconds (gap : Int) : Int :=
  if 0 < gap then
    if gap ≤ 1800 then gap
    else if gap ≤ 3600 then 1800
    else 0
  else 0

/-- `total_waiting_seconds` of `calculate_waiting_hours_from_orders`: gaps
between consecutive orders of the accepted-ordered fetched list. -/
def calculate_waiting_seconds (trips : List Trip) : Int :=
  let os := sortByKey (fun t => t.accepted.getD 0) (ordersWithTimestamps trips)
  ((os.zip os.tail).map
    (fun p => gapWaitingSeconds (p.2.accepted.getD 0 - p.1.finished.getD 0))).sum

/-- `calculate_waiting_hours_from_orders` (database.py:1137-1188): 0.0 with at
most one fetched order, otherwise whole-minute rounding then hours. -/
def calculate_waiting_hours_from_orders (trips : List Trip) : ℚ :=
  if (sortByKey (fun t => t.accepted.getD 0) (ordersWithTimestamps trips)).length ≤ 1
  then 0
  else round2 ((pyRound ((calculate_waiting_seconds trips : ℚ) / 60) : ℚ) / 60)

/-- Modelled from the spec (§4.3 step 2), for comparison with
`gapWaitingSeconds`: full gap when `0 < gap ≤ 1800`, flat 1800 when
`1800 < gap ≤ 3600`, zero when `gap > 3600`. -/
def specGapSeconds (gap : Int) : Int :=
  if 0 < gap ∧ gap ≤ 1800 then gap
  else if 1800 < gap ∧ gap ≤ 3600 then 1800
  else 0

/-- Modelled from the spec (§4.3 step 1), for comparison with
`tripActiveSeconds`: for a trip with both timestamps, clamp the raw duration
into `[distance_km/60, distance_km/10]` (in seconds) when the distance is
positive, otherwise cap it at two hours. -/
def specClampedSeconds (t : Trip) : ℚ :=
  match t.accepted, t.finished with
  | some a, some f =>
    let raw : ℚ := ((f - a : Int) : ℚ)
    (match t.distance with
     | some d =>
       if 0 < d then
         max ((d : ℚ) / 1000 / 60 * 3600) (min ((d : ℚ) / 1000 / 10 * 3600) raw)
       else min raw 7200
     | none => min raw 7200)
  | _, _ => 0

/-- Modelled from the spec (§8 "naive sum"), for comparison with
`calculate_active_seconds`: the raw, uncapped `finished - accepted` duration
of a trip (zero when a timestamp is missing). -/
def rawRideSeconds (t : Trip) : ℚ :=
  match t.accepted, t.finished with
  | some a, some f => ((f - a : Int) : ℚ)
  | _, _ => 0

/-- A driver state-change event row (`state_logs`): driver uuid, state
vocabulary string, epoch-second timestamp (`created`).  Every consumer of the
`state` column immediately normalizes it with `.lower()`, so the field is
modelled as the already-lowercased string. -/
structure SLog where
  driver : String
  state : String
  created : Int
deriving DecidableEq

/-- Result dictionary of `calculate_hours_from_states`:
`total_online_hours`, `ride_hours`, `waiting_hours`. -/
structure StateHours where
  total : ℚ
  ride : ℚ
  waiting : ℚ
deriving DecidableEq

/-- First loop of `calculate_hours_from_states` (database.py:511-518): the
`last_state` recorded while scanning logs strictly before `start_ts`,
stopping at the first log at or after `start_ts`. -/
def statesPreScan : List SLog → Int → Option String
  | [], _ => none
  | l :: rest, start_ts =>
    if l.created < start_ts then
      match statesPreScan rest start_ts with
      | some s => some s
      | none => some l.state
    else none

/-- Main loop of `calculate_hours_from_states` (database.py:524-555): walks
logs in order, skips pre-window logs, caps timestamps at `end_ts`, adds the
duration since the previous state change to the bucket of the previous state,
and stops once the window end is reached.  State: `last_state`,
`last_timestamp`, and the `(total, ride, waiting)` second counters. -/
def statesLoopAux : List SLog → Int → Int → Option String → Option Int →
    Int × Int × Int → Option String × Option Int × Int × Int × Int
  | [], _, _, ls, lt, acc => (ls, lt, acc)
  | l :: rest, start_ts, end_ts, ls, lt, acc =>
    if l.created < start_ts then statesLoopAux rest start_ts end_ts ls lt acc
    else
      let ts := if end_ts < l.created then end_ts else l.created
      let st := l.state
      let acc2 :=
        match lt with
        | some t =>
          if start_ts ≤ t then
            let d := ts - t
            if ls = some "waiting_orders" then (acc.1 + d, acc.2.1, acc.2.2 + d)
            else if ls = some "has_order" ∨ ls = some "busy" then
              (acc.1 + d, acc.2.1 + d, acc.2.2)
            else acc
          else acc
        | none => acc
      if end_ts ≤ ts then (ls, lt, acc2)
      else statesLoopAux rest start_ts end_ts (some st) (some ts) acc2

/-- Second counters of `calculate_hours_from_states` (database.py:478-567):
per-driver filter, sort by `created`, seed `last_state` from pre-window logs
(an online seed starts the clock at `start_ts`), walk the in-window logs, then
right-censor a still-open online stretch at `min(end_ts, now)` (Python
truthiness: a zero `last_timestamp` skips the final block).  Returns
`(total_online_seconds, ride_seconds, waiting_seconds)`. -/
def hours_from_states_seconds (uuid : String) (start_ts end_ts now : Int)
    (state_logs : List SLog) : Int × Int × Int :=
  let dl := state_logs.filter (fun l => l.driver == uuid)
  let dl2 := sortByKey (fun l => l.created) dl
  let ls0 := statesPreScan dl2 start_ts
  let lt0 : Option Int :=
    if ls0 = some "waiting_orders" ∨ ls0 = some "has_order" ∨ ls0 = some "busy"
    then some start_ts else none
  match statesLoopAux dl2 start_ts end_ts ls0 lt0 (0, 0, 0) with
  | (lsF, ltF, tot, ride, wait) =>
    match ltF with
    | some t =>
      if t ≠ 0 ∧ t < end_ts then
        let ft := min end_ts now
        if lsF = some "waiting_orders" then (tot + (ft - t), ride, wait + (ft - t))
        else if lsF = some "has_order" ∨ lsF = some "busy" then
          (tot + (ft - t), ride + (ft - t), wait)
        else (tot, ride, wait)
      else (tot, ride, wait)
    | none => (tot, ride, wait)

/-- `calculate_hours_from_states` (database.py:478-573): zero dictionary when
the driver has no logs, otherwise the second counters converted to hours and
rounded to two decimals. -/
def calculate_hours_from_states (uuid : String) (start_ts end_ts now : Int)
    (state_logs : List SLog) : StateHours :=
  if state_logs.filter (fun l => l.driver == uuid) = [] then ⟨0, 0, 0⟩
  else
    let fin := hours_from_states_seconds uuid start_ts end_ts now state_logs
    ⟨round2 ((fin.1 : ℚ) / 3600), round2 ((fin.2.1 : ℚ) / 3600),
     round2 ((fin.2.2 : ℚ) / 3600)⟩

/-- The hour-related slice of the statistics dictionary returned by
`get_driver_stats_by_date_range`: `hours_worked` (active), `waiting_hours`,
`total_online_hours`. -/
structure HoursStats where
  active : ℚ
  waiting : ℚ
  total : ℚ
deriving DecidableEq

/-- Hour reconciliation of `get_driver_stats_by_date_range`
(database.py:947-1055): `None` with no finished orders; otherwise active hours
from orders, waiting hours from state logs when any log of this driver shows
`waiting_orders` (in that case the order-based active figure is replaced by
the state-log `ride_hours` only when the latter is positive and within 2 hours
of it), order-gap waiting hours when the state-log waiting figure is zero, and
`total_online_hours = round(active + waiting, 2)`. -/
def get_driver_stats_by_date_range (uuid : String) (trips : List Trip)
    (state_logs : List SLog) (start_ts end_ts now : Int) : Option HoursStats :=
  if trips.length = 0 then none
  else
    let a0 := calculate_active_hours_from_orders trips
    if state_logs.any (fun l => l.driver == uuid && l.state == "waiting_orders")
    then
      let hd := calculate_hours_from_states uuid start_ts end_ts now state_logs
      let a := if 0 < hd.ride ∧ |hd.ride - a0| < 2 then hd.ride else a0
      let w := if hd.waiting = 0 then calculate_waiting_hours_from_orders trips
               else hd.waiting
      some ⟨a, w, round2 (a + w)⟩
    else
      let w := calculate_waiting_hours_from_orders trips
      some ⟨a0, w, round2 (a0 + w)⟩

/-- `_show_driver_stats` (fleet.py:762-843), reduced to its data flow: state
logs are fetched only when `(end_date - start_date).days <= 31`
(`timedelta.days` is floor division by 86400 seconds), and the statistics are
then computed by `get_driver_stats_by_date_range` with the fetched (or empty)
log list. -/
def show_driver_stats (uuid : String) (trips : List Trip) (state_logs : List SLog)
    (start_ts end_ts now : Int) : Option HoursStats :=
  let days_diff := (end_ts - start_ts).fdiv 86400
  let logs := if days_diff ≤ 31 then state_logs else []
  get_driver_stats_by_date_range uuid trips logs start_ts end_ts now

/-- A WAITING/ENGAGED interval reconstructed from state logs:
`(start, end, state_type)` as appended to `online_periods` in
`calculate_driver_hours_from_states`. -/
structure Period where
  start : Int
  stop : Int
  kind : String
deriving DecidableEq

/-- Event walk of `calculate_driver_hours_from_states` (database.py:686-711):
an online state opens a period when none is open; a different online state
while online closes the current period at the event timestamp and opens the
next one at the same timestamp; `inactive` closes the current period; other
raw states are ignored.  Returns the accumulated periods and the still-open
`(current_online_start, current_state)`. -/
def walkStates : List SLog → Option (Int × String) → List Period →
    List Period × Option (Int × String)
  | [], cur, acc => (acc, cur)
  | l :: rest, cur, acc =>
    let st := l.state
    if st = "waiting_orders" ∨ st = "has_order" then
      match cur with
      | none => walkStates rest (some (l.created, st)) acc
      | some (t, s) =>
        if s = st then walkStates rest (some (t, s)) acc
        else walkStates rest (some (l.created, st)) (acc ++ [⟨t, l.created, s⟩])
    else if st = "inactive" then
      match cur with
      | some (t, s) => walkStates rest none (acc ++ [⟨t, l.created, s⟩])
      | none => walkStates rest none acc
    else walkStates rest cur acc

/-- The `online_periods` list built by `calculate_driver_hours_from_states`
(database.py:659-713): filter to the driver and the inclusive window, sort by
`created`, walk the events, and right-censor a still-open period at
`min(now, end_ts)`. -/
def onlinePeriods (uuid : String) (start_ts end_ts now : Int)
    (state_logs : List SLog) : List Period :=
  let dl := state_logs.filter
    (fun l => l.driver == uuid && start_ts ≤ l.created && l.created ≤ end_ts)
  let dl2 := sortByKey (fun l => l.created) dl
  match walkStates dl2 none [] with
  | (acc, some (t, s)) => acc ++ [⟨t, min now end_ts, s⟩]
  | (acc, none) => acc

/-- Totals of `calculate_driver_hours_from_states` (database.py:715-734):
sum the period durations into waiting (`waiting_orders`) and active
(`has_order`) buckets and round each to hundredths of an hour. -/
def calculate_driver_hours_from_states (uuid : String) (start_ts end_ts now : Int)
    (state_logs : List SLog) : ℚ × ℚ × ℚ :=
  let ps := onlinePeriods uuid start_ts end_ts now state_logs
  let tot := (ps.map (fun p => p.stop - p.start)).sum
  let wait := ((ps.filter (fun p => p.kind == "waiting_orders")).map
    (fun p => p.stop - p.start)).sum
  let act := ((ps.filter (fun p => p.kind == "has_order")).map
    (fun p => p.stop - p.start)).sum
  (round2 ((tot : ℚ) / 3600), round2 ((wait : ℚ) / 3600), round2 ((act : ℚ) / 3600))

/-- A wall-clock instant of the fixed local civil timezone, as a civil day
index and the seconds elapsed since that day's local midnight.  Arithmetic on
`datetime` fields (`replace(hour=0, ...)`, `timedelta(days=k)`) acts on these
two components. -/
structure LocalTime where
  day : Int
  sec : Int
deriving DecidableEq

/-- `now.replace(hour=0, minute=0, second=0, microsecond=0)`. -/
def localMidnight (t : LocalTime) : LocalTime := ⟨t.day, 0⟩

/-- `t - timedelta(days=k)` on civil fields. -/
def subDays (t : LocalTime) (k : Int) : LocalTime := ⟨t.day - k, t.sec⟩

/-- Epoch seconds of a civil instant (86400-second civil days). -/
def LocalTime.epoch (t : LocalTime) : Int := t.day * 86400 + t.sec

/-- The "last N days" window of `get_driver_stats_by_uuid`
(database.py:736-772): `start = midnight(today) - (days - 1) days`,
`end = now`, both in the local civil timezone. -/
def lastNDaysWindow (days : Int) (now : LocalTime) : LocalTime × LocalTime :=
  (subDays (localMidnight now) (days - 1), now)

/-- Modelled from the spec (§4.3 step 1), for comparison with
`calculate_active_seconds`: the sum of per-trip spec-clamped durations. -/
def spec_active_seconds (trips : List Trip) : ℚ :=
  (trips.map specClampedSeconds).sum

/-- Modelled from the spec (§8), for comparison with the order-based active
hours: the naive sum of raw, uncapped trip durations, in hours. -/
def naive_raw_hours (trips : List Trip) : ℚ :=
  (trips.map rawRideSeconds).sum / 3600

/-- A civil calendar date (year, month, day) of the fixed local timezone. -/
structure Date where
  year : Int
  month : Int
  day : Int
deriving DecidableEq

/-- Lexicographic (chronological) strict order on civil dates, as `datetime`
comparison restricted to the date fields. -/
def dateLt (a b : Date) : Prop :=
  a.year < b.year ∨ (a.year = b.year ∧
    (a.month < b.month ∨ (a.month = b.month ∧ a.day < b.day)))

/-- Lexicographic (chronological) order on civil dates. -/
def dateLe (a b : Date) : Prop := dateLt a b ∨ a = b

instance (a b : Date) : Decidable (dateLt a b) := by
  unfold dateLt
  infer_instance

instance (a b : Date) : Decidable (dateLe a b) := by
  unfold dateLe
  infer_instance

/-- A civil instant: a date plus seconds since that date's local midnight. -/
structure CivilDateTime where
  date : Date
  sec : Int
deriving DecidableEq

/-- `datetime` comparison on civil instants. -/
def dtLe (a b : CivilDateTime) : Prop :=
  dateLt a.date b.date ∨ (a.date = b.date ∧ a.sec ≤ b.sec)

instance (a b : CivilDateTime) : Decidable (dtLe a b) := by
  unfold dtLe
  infer_instance

/-- Gregorian leap-year rule. -/
def isLeapYear (y : Int) : Bool :=
  y % 4 = 0 && (y % 100 != 0 || y % 400 = 0)

/-- Days in a civil month. -/
def daysInMonth (y m : Int) : Int :=
  if m = 2 then (if isLeapYear y then 29 else 28)
  else if m = 4 ∨ m = 6 ∨ m = 9 ∨ m = 11 then 30
  else 31

/-- `d + timedelta(days=1)` on a civil date. -/
def nextCalendarDay (d : Date) : Date :=
  if d.day < daysInMonth d.year d.month then ⟨d.year, d.month, d.day + 1⟩
  else if d.month < 12 then ⟨d.year, d.month + 1, 1⟩
  else ⟨d.year + 1, 1, 1⟩

/-- `COMPANY_START_DATE = datetime(2025, 7, 28)` (fleet.py:12). -/
def COMPANY_START_DATE : CivilDateTime := ⟨⟨2025, 7, 28⟩, 0⟩

/-- `check_date_limits` (fleet.py:31-33):
`COMPANY_START_DATE <= check_date <= datetime.now()`. -/
def check_date_limits (now d : CivilDateTime) : Prop :=
  dtLe COMPANY_START_DATE d ∧ dtLe d now

/-- The period selector of `_show_driver_stats` (fleet.py:775-806). -/
inductive ViewType where
  | day (d : Date)
  | week (ws we : Date)
  | month (y m : Int)
  | year (y : Int)
  | custom (cs ce : Date)

/-- Window resolution of `_show_driver_stats` (fleet.py:775-806), at civil
midnight granularity: every view resolves to `[local_start, local_end)` with
both endpoints at local midnight of the computed dates. -/
def resolveWindow : ViewType → Date × Date
  | .day d => (d, nextCalendarDay d)
  | .week ws we => (ws, nextCalendarDay we)
  | .month y m => (⟨y, m, 1⟩, if m = 12 then ⟨y + 1, 1, 1⟩ else ⟨y, m + 1, 1⟩)
  | .year y => (⟨y, 1, 1⟩, ⟨y + 1, 1, 1⟩)
  | .custom cs ce => (cs, nextCalendarDay ce)

/-- Validity of the selector inputs as produced by the calendar UI: a week
runs from its Monday to its Sunday, a custom range from its first to its last
day. -/
def viewOk : ViewType → Prop
  | .week ws we => dateLe ws we
  | .custom cs ce => dateLe cs ce
  | _ => True

/-- Resolved window start as a civil instant (local midnight). -/
def resolvedStart (v : ViewType) : CivilDateTime := ⟨(resolveWindow v).1, 0⟩

/-- Resolved window end as a civil instant (local midnight). -/
def resolvedEnd (v : ViewType) : CivilDateTime := ⟨(resolveWindow v).2, 0⟩

theorem clampedRideSeconds_nonneg (a f : Int) (dist : Option Int) :
    0 ≤ clampedRideSeconds a f dist := by
  cases dist with
  | none =>
    simp only [clampedRideSeconds]
    split_ifs with hg
    · obtain ⟨-, -, haf⟩ := hg
      have hraw : (0 : ℚ) ≤ ((f - a : Int) : ℚ) := by
        exact_mod_cast Int.sub_nonneg.mpr haf.le
      exact le_min hraw (by norm_num)
    · exact le_refl 0
  | some d =>
    simp only [clampedRideSeconds]
    split_ifs with hg hd h1 h2
    · have hd' : (0 : ℚ) < (d : ℚ) := by exact_mod_cast hd
      positivity
    · have hd' : (0 : ℚ) < (d : ℚ) := by exact_mod_cast hd
      positivity
    · obtain ⟨-, -, haf⟩ := hg
      exact_mod_cast Int.sub_nonneg.mpr haf.le
    · obtain ⟨-, -, haf⟩ := hg
      have hraw : (0 : ℚ) ≤ ((f - a : Int) : ℚ) := by
        exact_mod_cast Int.sub_nonneg.mpr haf.le
      exact le_min hraw (by norm_num)
    · exact le_refl 0

theorem tripActiveSeconds_nonneg (t : Trip) : 0 ≤ tripActiveSeconds t := by
  unfold tripActiveSeconds
  split
  · exact clampedRideSeconds_nonneg _ _ _
  · exact le_refl 0

theorem tripActive_eq_spec (t : Trip)
    (h : ∀ a f : Int, t.accepted = some a → t.finished = some f →
      a ≠ 0 ∧ f ≠ 0 ∧ a < f) :
    tripActiveSeconds t = specClampedSeconds t := by
  rcases ha : t.accepted with _ | a <;> rcases hf : t.finished with _ | f
  · simp [tripActiveSeconds, specClampedSeconds, ha, hf]
  · simp [tripActiveSeconds, specClampedSeconds, ha, hf]
  · simp [tripActiveSeconds, specClampedSeconds, ha, hf]
  · have hg := h a f ha hf
    simp only [tripActiveSeconds, specClampedSeconds, ha, hf, Option.isSome_some,
      Bool.and_self, if_true, Option.getD_some]
    rcases hd : t.distance with _ | d
    · simp only [clampedRideSeconds, hd]
      rw [if_pos hg]
    · simp only [clampedRideSeconds, hd]
      rw [if_pos hg]
      by_cases hdp : (0 : Int) < d
      · rw [if_pos hdp, if_pos hdp]
        have hdq : (0 : ℚ) < (d : ℚ) := by exact_mod_cast hdp
        have hmm : (d : ℚ) / 1000 / 60 * 3600 ≤ (d : ℚ) / 1000 / 10 * 3600 := by
          nlinarith
        by_cases h1 : ((f - a : Int) : ℚ) < (d : ℚ) / 1000 / 60 * 3600
        · rw [if_pos h1, min_eq_right (le_trans h1.le hmm), max_eq_left h1.le]
        · rw [if_neg h1]
          by_cases h2 : (d : ℚ) / 1000 / 10 * 3600 < ((f - a : Int) : ℚ)
          · rw [if_pos h2, min_eq_left h2.le, max_eq_right hmm]
          · rw [if_neg h2, min_eq_right (not_lt.mp h2), max_eq_right (not_lt.mp h1)]
      · rw [if_neg hdp, if_neg hdp]

theorem tripActive_le_raw (t : Trip)
    (h : ∀ a f : Int, t.accepted = some a → t.finished = some f →
      a ≤ f ∧ (∀ d : Int, t.distance = some d → 0 < d → a < f →
        (d : ℚ) / 1000 / 60 * 3600 ≤ ((f - a : Int) : ℚ))) :
    tripActiveSeconds t ≤ rawRideSeconds t := by
  rcases ha : t.accepted with _ | a <;> rcases hf : t.finished with _ | f
  · simp [tripActiveSeconds, rawRideSeconds, ha, hf]
  · simp [tripActiveSeconds, rawRideSeconds, ha, hf]
  · simp [tripActiveSeconds, rawRideSeconds, ha, hf]
  · obtain ⟨hle, hmin⟩ := h a f ha hf
    have hraw : (0 : ℚ) ≤ ((f - a : Int) : ℚ) := by
      exact_mod_cast Int.sub_nonneg.mpr hle
    simp only [tripActiveSeconds, rawRideSeconds, ha, hf, Option.isSome_some,
      Bool.and_self, if_true, Option.getD_some]
    by_cases hg : a ≠ 0 ∧ f ≠ 0 ∧ a < f
    · rcases hd : t.distance with _ | d
      · simp only [clampedRideSeconds, hd]
        rw [if_pos hg]
        exact min_le_left _ _
      · simp only [clampedRideSeconds, hd]
        rw [if_pos hg]
        by_cases hdp : (0 : Int) < d
        · rw [if_pos hdp]
          have htm := hmin d hd hdp hg.2.2
          rw [if_neg (not_lt.mpr htm)]
          split_ifs with h2
          · exact h2.le
          · exact le_refl _
        · rw [if_neg hdp]
          exact min_le_left _ _
    · simp only [clampedRideSeconds]
      rw [if_neg hg]
      exact hraw

/-- C1: in `calculate_active_hours_from_orders`, for trips whose (nonzero)
timestamps satisfy `accepted < finished`, the accumulated `active_seconds` is
exactly the sum of spec-clamped durations: raw duration clamped into
`[distance_km/60, distance_km/10]` (in seconds) when the distance is positive,
capped at two hours when the distance is absent or not positive. -/
theorem C1_active_seconds_is_clamped_sum (trips : List Trip)
    (h : ∀ t ∈ trips, ∀ a f : Int, t.accepted = some a → t.finished = some f →
      a ≠ 0 ∧ f ≠ 0 ∧ a < f) :
    calculate_active_seconds trips = spec_active_seconds trips := by
  rw [calculate_active_seconds_eq]
  unfold spec_active_seconds
  exact congrArg List.sum (List.map_congr_left (fun t ht => tripActive_eq_spec t (h t ht)))

/-- C1 witness: a 25-minute, 8 km trip. -/
theorem C1_active_seconds_is_clamped_sum_witness :
    calculate_active_seconds [⟨some 1000, some 2500, some 8000⟩]
      = spec_active_seconds [⟨some 1000, some 2500, some 8000⟩] :=
  C1_active_seconds_is_clamped_sum _ (by
    intro t ht a f ha hf
    simp only [List.mem_singleton] at ht
    subst ht
    simp only [Option.some.injEq] at ha hf
    omega)

/-- C1 counterexample: a trip with `finished = accepted` and a positive
distance contributes 0 seconds in the code, while the claimed clamping into
`[min_time, max_time]` would force 480 seconds for 8 km. -/
theorem C1_counterexample :
    calculate_active_seconds [⟨some 1000, some 1000, some 8000⟩] = 0 ∧
    spec_active_seconds [⟨some 1000, some 1000, some 8000⟩] = 480 := by
  constructor
  · rw [calculate_active_seconds_eq]
    simp only [List.map_cons, List.map_nil, List.sum_cons, List.sum_nil, add_zero]
    simp only [tripActiveSeconds, Option.isSome_some, Bool.and_self, if_true,
      Option.getD_some]
    simp only [clampedRideSeconds]
    rw [if_neg (by omega)]
  · simp only [spec_active_seconds, List.map_cons, List.map_nil, List.sum_cons,
      List.sum_nil, add_zero]
    simp only [specClampedSeconds]
    rw [if_pos (by norm_num)]
    rw [show ((1000 - 1000 : Int) : ℚ) = 0 by norm_num]
    rw [min_eq_right (by norm_num), max_eq_left (by norm_num)]
    norm_num

/-- C2: `calculate_waiting_hours_from_orders` sums, over consecutive pairs of
the accepted-ordered orders, exactly the spec gap rule (full gap when
`0 < gap ≤ 1800`, flat 1800 when `1800 < gap ≤ 3600`, zero beyond 3600), and
zero or one trip in the window yields waiting hours 0. -/
theorem C2_waiting_gap_rule (trips : List Trip) :
    calculate_waiting_seconds trips
      = (((sortByKey (fun t => t.accepted.getD 0) (ordersWithTimestamps trips)).zip
          (sortByKey (fun t => t.accepted.getD 0) (ordersWithTimestamps trips)).tail).map
          (fun p => specGapSeconds (p.2.accepted.getD 0 - p.1.finished.getD 0))).sum ∧
    (trips.length ≤ 1 → calculate_waiting_hours_from_orders trips = 0) := by
  have hpt : ∀ g : Int, gapWaitingSeconds g = specGapSeconds g := by
    intro g
    unfold gapWaitingSeconds specGapSeconds
    split_ifs <;> omega
  constructor
  · simp only [calculate_waiting_seconds, hpt]
  · intro hlen
    unfold calculate_waiting_hours_from_orders
    rw [if_pos]
    have h1 : (sortByKey (fun t => t.accepted.getD 0) (ordersWithTimestamps trips)).length
        = (ordersWithTimestamps trips).length := (sortByKey_perm _ _).length_eq
    have h2 : (ordersWithTimestamps trips).length ≤ trips.length :=
      List.length_filter_le _ _
    omega

/-- C2 witness: a single trip has zero waiting hours. -/
theorem C2_waiting_gap_rule_witness :
    calculate_waiting_hours_from_orders [⟨some 1000, some 4600, none⟩] = 0 :=
  (C2_waiting_gap_rule _).2 (by simp)

/-- C3 (amended): the order-based active seconds never exceed the naive raw
duration sum, provided no counted trip's raw duration falls below its
distance-based minimum plausible time (the code raises such trips up to
`min_time`, which is what breaks the unconditional claim). -/
theorem C3_active_le_raw_without_minimum_raise (trips : List Trip)
    (h : ∀ t ∈ trips, ∀ a f : Int, t.accepted = some a → t.finished = some f →
      a ≤ f ∧ (∀ d : Int, t.distance = some d → 0 < d → a < f →
        (d : ℚ) / 1000 / 60 * 3600 ≤ ((f - a : Int) : ℚ))) :
    calculate_active_seconds trips / 3600 ≤ naive_raw_hours trips := by
  unfold naive_raw_hours
  rw [div_le_div_iff_of_pos_right (by norm_num : (0:ℚ) < 3600)]
  rw [calculate_active_seconds_eq]
  exact List.sum_le_sum (fun t ht => tripActive_le_raw t (h t ht))

/-- C3 witness: a trip whose raw duration lies inside its plausibility bounds. -/
theorem C3_active_le_raw_without_minimum_raise_witness :
    calculate_active_seconds [⟨some 1000, some 2500, some 8000⟩] / 3600
      ≤ naive_raw_hours [⟨some 1000, some 2500, some 8000⟩] :=
  C3_active_le_raw_without_minimum_raise _ (by
    intro t ht a f ha hf
    simp only [List.mem_singleton] at ht
    subst ht
    simp only [Option.some.injEq] at ha hf
    constructor
    · omega
    · intro d hd hdp haf
      simp only [Option.some.injEq] at hd
      subst ha
      subst hf
      subst hd
      norm_num)

/-- C3 counterexample: one 25-minute trip recorded with 100 km of distance is
raised to its 100-minute minimum plausible duration, so the order-based
active hours (1.67) exceed the naive raw sum (25 minutes ≈ 0.4167 h). -/
theorem C3_counterexample :
    ¬ (calculate_active_hours_from_orders [⟨some 1000, some 2500, some 100000⟩]
        ≤ naive_raw_hours [⟨some 1000, some 2500, some 100000⟩]) := by
  have hsec : calculate_active_seconds [⟨some 1000, some 2500, some 100000⟩] = 6000 := by
    rw [calculate_active_seconds_eq]
    simp only [List.map_cons, List.map_nil, List.sum_cons, List.sum_nil, add_zero]
    simp only [tripActiveSeconds, Option.isSome_some, Bool.and_self, if_true,
      Option.getD_some]
    simp only [clampedRideSeconds]
    rw [if_pos (by omega), if_pos (by norm_num), if_pos (by norm_num)]
    norm_num
  have hmin : pyRound
      (calculate_active_seconds [⟨some 1000, some 2500, some 100000⟩] / 60) = 100 := by
    rw [hsec, show (6000 : ℚ) / 60 = ((100 : Int) : ℚ) by norm_num, pyRound_intCast]
  unfold calculate_active_hours_from_orders
  rw [if_neg (by simp [ordersWithTimestamps])]
  rw [hmin]
  have h2 : round2 (((100 : Int) : ℚ) / 60) = 167 / 100 := by
    unfold round2
    rw [show (((100 : Int) : ℚ)) / 60 * 100 = 500 / 3 by norm_num]
    have hf : ⌊(500 : ℚ) / 3⌋ = 166 := by
      rw [Int.floor_eq_iff]
      constructor <;> norm_num
    rw [pyRound_eq_high hf (by norm_num)]
    norm_num
  rw [h2]
  unfold naive_raw_hours
  simp only [List.map_cons, List.map_nil, List.sum_cons, List.sum_nil, add_zero]
  simp only [rawRideSeconds]
  norm_num

/-- C10: a trip with a missing timestamp or with `finished ≤ accepted`
contributes zero seconds to the order-based active total, and the returned
active hours are non-negative for every trip list. -/
theorem C10_zero_contribution_and_nonneg (t : Trip) (trips : List Trip)
    (h : t.accepted = none ∨ t.finished = none ∨
      t.finished.getD 0 ≤ t.accepted.getD 0) :
    tripActiveSeconds t = 0 ∧ 0 ≤ calculate_active_hours_from_orders trips := by
  constructor
  · rcases h with h | h | h
    · simp [tripActiveSeconds, h]
    · simp [tripActiveSeconds, h]
    · unfold tripActiveSeconds
      split
      · simp only [clampedRideSeconds]
        rw [if_neg (by omega)]
      · rfl
  · unfold calculate_active_hours_from_orders
    split
    · exact le_refl 0
    · apply round2_nonneg
      have hs : 0 ≤ calculate_active_seconds trips := by
        rw [calculate_active_seconds_eq]
        apply List.sum_nonneg
        intro x hx
        obtain ⟨t', -, rfl⟩ := List.mem_map.mp hx
        exact tripActiveSeconds_nonneg t'
      have hp : (0 : Int) ≤ pyRound (calculate_active_seconds trips / 60) :=
        pyRound_nonneg (by positivity)
      have hq : (0 : ℚ) ≤ (pyRound (calculate_active_seconds trips / 60) : ℚ) := by
        exact_mod_cast hp
      positivity

/-- C10 witness: a trip with equal timestamps. -/
theorem C10_zero_contribution_and_nonneg_witness :
    tripActiveSeconds ⟨some 5, some 5, some 8000⟩ = 0 ∧
      0 ≤ calculate_active_hours_from_orders [⟨some 5, some 5, some 8000⟩] :=
  C10_zero_contribution_and_nonneg _ _ (by right; right; decide)

theorem round2_intCast (z : Int) : round2 (z : ℚ) = (z : ℚ) := by
  unfold round2
  rw [show ((z : ℚ) * 100) = ((z * 100 : Int) : ℚ) by push_cast; ring, pyRound_intCast]
  push_cast
  ring

theorem isCent_active_hours (trips : List Trip) :
    IsCent (calculate_active_hours_from_orders trips) := by
  unfold calculate_active_hours_from_orders
  split
  · exact isCent_zero
  · exact isCent_round2 _

theorem isCent_waiting_hours (trips : List Trip) :
    IsCent (calculate_waiting_hours_from_orders trips) := by
  unfold calculate_waiting_hours_from_orders
  split
  · exact isCent_zero
  · exact isCent_round2 _

theorem isCent_states_ride (uuid : String) (s e now : Int) (logs : List SLog) :
    IsCent (calculate_hours_from_states uuid s e now logs).ride := by
  unfold calculate_hours_from_states
  split
  · exact isCent_zero
  · exact isCent_round2 _

theorem isCent_states_waiting (uuid : String) (s e now : Int) (logs : List SLog) :
    IsCent (calculate_hours_from_states uuid s e now logs).waiting := by
  unfold calculate_hours_from_states
  split
  · exact isCent_zero
  · exact isCent_round2 _

/-- A driver with one 1-hour trip in the window. -/
def demoTrips : List Trip := [⟨some 1000, some 4600, none⟩]

/-- State logs for the same driver: two hours waiting, then offline. -/
def demoLogs : List SLog := [⟨"d", "waiting_orders", 1000⟩, ⟨"d", "inactive", 8200⟩]

theorem demoTrips_active_seconds : calculate_active_seconds demoTrips = 3600 := by
  rw [calculate_active_seconds_eq]
  simp only [demoTrips, List.map_cons, List.map_nil, List.sum_cons, List.sum_nil,
    add_zero]
  simp only [tripActiveSeconds, Option.isSome_some, Bool.and_self, if_true,
    Option.getD_some]
  simp only [clampedRideSeconds]
  rw [if_pos (by omega)]
  rw [show ((4600 - 1000 : Int) : ℚ) = 3600 by norm_num]
  rw [min_eq_left (by norm_num)]

theorem demoTrips_active : calculate_active_hours_from_orders demoTrips = 1 := by
  unfold calculate_active_hours_from_orders
  rw [if_neg (by decide)]
  rw [demoTrips_active_seconds]
  rw [show (3600 : ℚ) / 60 = ((60 : Int) : ℚ) by norm_num, pyRound_intCast]
  rw [show ((60 : Int) : ℚ) / 60 = ((1 : Int) : ℚ) by norm_num, round2_intCast]
  norm_num

theorem demoTrips_waiting : calculate_waiting_hours_from_orders demoTrips = 0 := by
  unfold calculate_waiting_hours_from_orders
  rw [if_pos (by decide)]

theorem demoLogs_seconds_10000 :
    hours_from_states_seconds "d" 0 10000 10000 demoLogs = (7200, 0, 7200) := by
  decide

theorem demoLogs_states_10000 :
    calculate_hours_from_states "d" 0 10000 10000 demoLogs = ⟨2, 0, 2⟩ := by
  unfold calculate_hours_from_states
  rw [if_neg (by decide)]
  rw [demoLogs_seconds_10000]
  dsimp only
  rw [show ((7200 : Int) : ℚ) / 3600 = ((2 : Int) : ℚ) by norm_num,
    show ((0 : Int) : ℚ) / 3600 = ((0 : Int) : ℚ) by norm_num,
    round2_intCast, round2_intCast]
  norm_num

theorem demo_stats_with_logs :
    get_driver_stats_by_date_range "d" demoTrips demoLogs 0 10000 10000
      = some ⟨1, 2, 3⟩ := by
  simp only [get_driver_stats_by_date_range]
  rw [if_neg (by decide), if_pos (by decide)]
  rw [demoLogs_states_10000, demoTrips_active]
  dsimp only
  rw [if_neg (by norm_num), if_neg (by norm_num)]
  rw [show (1 : ℚ) + 2 = ((3 : Int) : ℚ) by norm_num, round2_intCast]
  norm_num

theorem demo_stats_without_logs (s e now : Int) :
    get_driver_stats_by_date_range "d" demoTrips [] s e now = some ⟨1, 0, 1⟩ := by
  simp only [get_driver_stats_by_date_range]
  rw [if_neg (by decide), if_neg (by decide)]
  rw [demoTrips_active, demoTrips_waiting]
  rw [show (1 : ℚ) + 0 = ((1 : Int) : ℚ) by norm_num, round2_intCast]
  norm_num

/-- C6: every statistics result that is not `None` satisfies
`total_online_hours = active_hours + waiting_hours` exactly: both summands are
two-decimal roundings, so the final `round(active + waiting, 2)` is the plain
sum. -/
theorem C6_total_is_active_plus_waiting (uuid : String) (trips : List Trip)
    (logs : List SLog) (s e now : Int) (st : HoursStats)
    (h : get_driver_stats_by_date_range uuid trips logs s e now = some st) :
    st.total = st.active + st.waiting := by
  simp only [get_driver_stats_by_date_range] at h
  split at h
  · exact absurd h (by simp)
  · split at h
    · have hst := Option.some.inj h
      subst hst
      dsimp only
      apply round2_add_cents
      · split_ifs with hc
        · exact isCent_states_ride uuid s e now logs
        · exact isCent_active_hours trips
      · split_ifs with hw
        · exact isCent_waiting_hours trips
        · exact isCent_states_waiting uuid s e now logs
    · have hst := Option.some.inj h
      subst hst
      dsimp only
      apply round2_add_cents
      · exact isCent_active_hours trips
      · exact isCent_waiting_hours trips

/-- C6 witness: one driver, one trip, no state logs. -/
theorem C6_total_is_active_plus_waiting_witness :
    (⟨1, 0, 1⟩ : HoursStats).total
      = (⟨1, 0, 1⟩ : HoursStats).active + (⟨1, 0, 1⟩ : HoursStats).waiting :=
  C6_total_is_active_plus_waiting "d" demoTrips [] 0 10000 10000 ⟨1, 0, 1⟩
    (demo_stats_without_logs 0 10000 10000)

/-- C4 (amended): each reported hour component equals exactly one estimator's
figure — active hours are the order-based value or the state-log ride hours,
waiting hours are the state-log value or the order-gap value — but the
reported pair may mix the two sources. -/
theorem C4_each_component_from_one_source (uuid : String) (trips : List Trip)
    (logs : List SLog) (s e now : Int) (st : HoursStats)
    (h : get_driver_stats_by_date_range uuid trips logs s e now = some st) :
    (st.active = calculate_active_hours_from_orders trips ∨
      st.active = (calculate_hours_from_states uuid s e now logs).ride) ∧
    (st.waiting = (calculate_hours_from_states uuid s e now logs).waiting ∨
      st.waiting = calculate_waiting_hours_from_orders trips) := by
  simp only [get_driver_stats_by_date_range] at h
  split at h
  · exact absurd h (by simp)
  · split at h
    · have hst := Option.some.inj h
      subst hst
      constructor
      · dsimp only
        split_ifs
        · exact Or.inr rfl
        · exact Or.inl rfl
      · dsimp only
        split_ifs
        · exact Or.inr rfl
        · exact Or.inl rfl
    · have hst := Option.some.inj h
      subst hst
      exact ⟨Or.inl rfl, Or.inr rfl⟩

/-- C4 witness: the demo query. -/
theorem C4_each_component_from_one_source_witness :
    ((⟨1, 2, 3⟩ : HoursStats).active = calculate_active_hours_from_orders demoTrips ∨
      (⟨1, 2, 3⟩ : HoursStats).active
        = (calculate_hours_from_states "d" 0 10000 10000 demoLogs).ride) ∧
    ((⟨1, 2, 3⟩ : HoursStats).waiting
        = (calculate_hours_from_states "d" 0 10000 10000 demoLogs).waiting ∨
      (⟨1, 2, 3⟩ : HoursStats).waiting = calculate_waiting_hours_from_orders demoTrips) :=
  C4_each_component_from_one_source "d" demoTrips demoLogs 0 10000 10000 _
    demo_stats_with_logs

/-- C4 counterexample: with state logs showing two waiting hours but zero ride
hours, the reported pair is (active = 1 from orders, waiting = 2 from state
logs): it matches neither the state-log pair (0, 2) nor the order-based pair
(1, 0), so the two sources are blended within one result. -/
theorem C4_counterexample :
    get_driver_stats_by_date_range "d" demoTrips demoLogs 0 10000 10000
        = some ⟨1, 2, 3⟩ ∧
    ¬((1 : ℚ) = (calculate_hours_from_states "d" 0 10000 10000 demoLogs).ride ∧
      (2 : ℚ) = (calculate_hours_from_states "d" 0 10000 10000 demoLogs).waiting) ∧
    ¬((1 : ℚ) = calculate_active_hours_from_orders demoTrips ∧
      (2 : ℚ) = calculate_waiting_hours_from_orders demoTrips) := by
  refine ⟨demo_stats_with_logs, ?_, ?_⟩
  · intro hC
    rw [demoLogs_states_10000] at hC
    exact absurd hC.1 (by norm_num)
  · intro hC
    rw [demoTrips_waiting] at hC
    exact absurd hC.2 (by norm_num)

/-- C5 (amended): state logs are skipped exactly when
`(end - start).days > 31`, i.e. when the window spans at least 32 whole days;
with them skipped the result is entirely order-based. -/
theorem C5_long_window_is_order_based (uuid : String) (trips : List Trip)
    (logs : List SLog) (s e now : Int) (h : 31 < (e - s).fdiv 86400) :
    show_driver_stats uuid trips logs s e now
      = get_driver_stats_by_date_range uuid trips [] s e now ∧
    ∀ st : HoursStats,
      get_driver_stats_by_date_range uuid trips [] s e now = some st →
        st.active = calculate_active_hours_from_orders trips ∧
        st.waiting = calculate_waiting_hours_from_orders trips := by
  constructor
  · simp only [show_driver_stats]
    rw [if_neg (by omega)]
  · intro st hst
    simp only [get_driver_stats_by_date_range] at hst
    split at hst
    · exact absurd hst (by simp)
    · split at hst
      · rename_i hany
        exact absurd hany (by simp)
      · have h2 := Option.some.inj hst
        subst h2
        exact ⟨rfl, rfl⟩

/-- C5 witness: a 32-day window. -/
theorem C5_long_window_is_order_based_witness :
    show_driver_stats "d" demoTrips demoLogs 0 2764800 2764800
        = get_driver_stats_by_date_range "d" demoTrips [] 0 2764800 2764800 ∧
    ∀ st : HoursStats,
      get_driver_stats_by_date_range "d" demoTrips [] 0 2764800 2764800 = some st →
        st.active = calculate_active_hours_from_orders demoTrips ∧
        st.waiting = calculate_waiting_hours_from_orders demoTrips :=
  C5_long_window_is_order_based "d" demoTrips demoLogs 0 2764800 2764800 (by decide)

theorem demoLogs_seconds_2682000 :
    hours_from_states_seconds "d" 0 2682000 2682000 demoLogs = (7200, 0, 7200) := by
  decide

theorem demoLogs_states_2682000 :
    calculate_hours_from_states "d" 0 2682000 2682000 demoLogs = ⟨2, 0, 2⟩ := by
  unfold calculate_hours_from_states
  rw [if_neg (by decide)]
  rw [demoLogs_seconds_2682000]
  dsimp only
  rw [show ((7200 : Int) : ℚ) / 3600 = ((2 : Int) : ℚ) by norm_num,
    show ((0 : Int) : ℚ) / 3600 = ((0 : Int) : ℚ) by norm_num,
    round2_intCast, round2_intCast]
  norm_num

theorem demo_stats_with_logs_2682000 :
    get_driver_stats_by_date_range "d" demoTrips demoLogs 0 2682000 2682000
      = some ⟨1, 2, 3⟩ := by
  simp only [get_driver_stats_by_date_range]
  rw [if_neg (by decide), if_pos (by decide)]
  rw [demoLogs_states_2682000, demoTrips_active]
  dsimp only
  rw [if_neg (by norm_num), if_neg (by norm_num)]
  rw [show (1 : ℚ) + 2 = ((3 : Int) : ℚ) by norm_num, round2_intCast]
  norm_num

/-- C5 counterexample: a window of 31 days plus one hour exceeds the 31-day
look-back, yet `timedelta.days` floors to 31, the state logs are fetched, and
the state-log waiting estimate (2 h) is used: the result (1, 2, 3) differs
from the order-only result (1, 0, 1). -/
theorem C5_counterexample :
    31 * 86400 < (2682000 : Int) - 0 ∧
    show_driver_stats "d" demoTrips demoLogs 0 2682000 2682000 = some ⟨1, 2, 3⟩ ∧
    get_driver_stats_by_date_range "d" demoTrips [] 0 2682000 2682000
      = some ⟨1, 0, 1⟩ := by
  refine ⟨by norm_num, ?_, demo_stats_without_logs 0 2682000 2682000⟩
  simp only [show_driver_stats]
  rw [if_pos (by decide)]
  exact demo_stats_with_logs_2682000

theorem walkStates_cons_online_none (l : SLog) (rest : List SLog) (acc : List Period)
    (hA : l.state = "waiting_orders" ∨ l.state = "has_order") :
    walkStates (l :: rest) none acc
      = walkStates rest (some (l.created, l.state)) acc := by
  simp only [walkStates]
  rw [if_pos hA]

theorem walkStates_cons_online_same (l : SLog) (rest : List SLog) (acc : List Period)
    (t : Int) (s : String)
    (hA : l.state = "waiting_orders" ∨ l.state = "has_order") (hs : s = l.state) :
    walkStates (l :: rest) (some (t, s)) acc = walkStates rest (some (t, s)) acc := by
  simp only [walkStates]
  rw [if_pos hA, if_pos hs]

theorem walkStates_cons_online_diff (l : SLog) (rest : List SLog) (acc : List Period)
    (t : Int) (s : String)
    (hA : l.state = "waiting_orders" ∨ l.state = "has_order") (hs : ¬ s = l.state) :
    walkStates (l :: rest) (some (t, s)) acc
      = walkStates rest (some (l.created, l.state)) (acc ++ [⟨t, l.created, s⟩]) := by
  simp only [walkStates]
  rw [if_pos hA, if_neg hs]

theorem walkStates_cons_inactive_some (l : SLog) (rest : List SLog) (acc : List Period)
    (t : Int) (s : String)
    (hA : ¬(l.state = "waiting_orders" ∨ l.state = "has_order"))
    (hB : l.state = "inactive") :
    walkStates (l :: rest) (some (t, s)) acc
      = walkStates rest none (acc ++ [⟨t, l.created, s⟩]) := by
  simp only [walkStates]
  rw [if_neg hA, if_pos hB]

theorem walkStates_cons_inactive_none (l : SLog) (rest : List SLog) (acc : List Period)
    (hA : ¬(l.state = "waiting_orders" ∨ l.state = "has_order"))
    (hB : l.state = "inactive") :
    walkStates (l :: rest) none acc = walkStates rest none acc := by
  simp only [walkStates]
  rw [if_neg hA, if_pos hB]

theorem walkStates_cons_other (l : SLog) (rest : List SLog) (acc : List Period)
    (cur : Option (Int × String))
    (hA : ¬(l.state = "waiting_orders" ∨ l.state = "has_order"))
    (hB : ¬ l.state = "inactive") :
    walkStates (l :: rest) cur acc = walkStates rest cur acc := by
  simp only [walkStates]
  rw [if_neg hA, if_neg hB]

theorem periods_append_inv (acc : List Period) (t stop : Int) (s : String)
    (hch : List.Chain' (fun p q : Period => p.stop ≤ q.start) acc)
    (hwf : ∀ p ∈ acc, p.start ≤ p.stop)
    (hstop : ∀ p ∈ acc, p.stop ≤ t) (hts : t ≤ stop) :
    List.Chain' (fun p q : Period => p.stop ≤ q.start) (acc ++ [⟨t, stop, s⟩]) ∧
    (∀ p ∈ acc ++ [⟨t, stop, s⟩], p.start ≤ p.stop) ∧
    (∀ p ∈ acc ++ [⟨t, stop, s⟩], p.stop ≤ stop) := by
  refine ⟨?_, ?_, ?_⟩
  · refine List.Chain'.append hch (List.chain'_singleton _) ?_
    intro x hx y hy
    simp only [List.head?_cons, Option.mem_def, Option.some.injEq] at hy
    subst hy
    obtain ⟨hne, hx2⟩ := List.mem_getLast?_eq_getLast hx
    exact hx2 ▸ hstop _ (List.getLast_mem hne)
  · intro p hp
    rcases List.mem_append.mp hp with hp | hp
    · exact hwf p hp
    · simp only [List.mem_singleton] at hp
      subst hp
      exact hts
  · intro p hp
    rcases List.mem_append.mp hp with hp | hp
    · exact le_trans (hstop p hp) hts
    · simp only [List.mem_singleton] at hp
      subst hp
      exact le_refl _

theorem walkStates_inv :
    ∀ (ls : List SLog) (cur : Option (Int × String)) (acc : List Period),
      List.Pairwise (fun a b : SLog => a.created ≤ b.created) ls →
      List.Chain' (fun p q : Period => p.stop ≤ q.start) acc →
      (∀ p ∈ acc, p.start ≤ p.stop) →
      (∀ t s, cur = some (t, s) →
        (∀ p ∈ acc, p.stop ≤ t) ∧ ∀ l ∈ ls, t ≤ l.created) →
      (cur = none → ∀ p ∈ acc, ∀ l ∈ ls, p.stop ≤ l.created) →
      List.Chain' (fun p q : Period => p.stop ≤ q.start) (walkStates ls cur acc).1 ∧
      (∀ p ∈ (walkStates ls cur acc).1, p.start ≤ p.stop) ∧
      (∀ t s, (walkStates ls cur acc).2 = some (t, s) →
        (∀ p ∈ (walkStates ls cur acc).1, p.stop ≤ t) ∧
        (cur = some (t, s) ∨ ∃ l ∈ ls, t = l.created)) := by
  intro ls
  induction ls with
  | nil =>
    intro cur acc hpw hch hwf hcur hnone
    refine ⟨hch, hwf, ?_⟩
    intro t s htc
    exact ⟨(hcur t s htc).1, Or.inl htc⟩
  | cons l rest ih =>
    intro cur acc hpw hch hwf hcur hnone
    obtain ⟨hd, hrest⟩ := List.pairwise_cons.mp hpw
    by_cases hA : l.state = "waiting_orders" ∨ l.state = "has_order"
    · cases cur with
      | none =>
        rw [walkStates_cons_online_none l rest acc hA]
        have hnacc : ∀ p ∈ acc, p.stop ≤ l.created := fun p hp =>
          hnone rfl p hp l (List.mem_cons_self _ _)
        obtain ⟨ha, hb, hc⟩ := ih (some (l.created, l.state)) acc hrest hch hwf
          (by
            intro t s htc
            obtain ⟨ht, -⟩ := Prod.mk.injEq .. ▸ Option.some.inj htc
            subst ht
            exact ⟨hnacc, fun l2 hl2 => hd l2 hl2⟩)
          (by intro hcno; exact absurd hcno (by simp))
        refine ⟨ha, hb, ?_⟩
        intro t s htc
        obtain ⟨h1, h2⟩ := hc t s htc
        refine ⟨h1, Or.inr ?_⟩
        rcases h2 with h2 | ⟨l2, hl2, rfl⟩
        · obtain ⟨ht, -⟩ := Prod.mk.injEq .. ▸ Option.some.inj h2
          exact ⟨l, List.mem_cons_self _ _, ht.symm⟩
        · exact ⟨l2, List.mem_cons_of_mem _ hl2, rfl⟩
      | some tc =>
        obtain ⟨t0, s0⟩ := tc
        obtain ⟨hstop0, hbelow0⟩ := hcur t0 s0 rfl
        have ht0l : t0 ≤ l.created := hbelow0 l (List.mem_cons_self _ _)
        by_cases hs : s0 = l.state
        · rw [walkStates_cons_online_same l rest acc t0 s0 hA hs]
          obtain ⟨ha, hb, hc⟩ := ih (some (t0, s0)) acc hrest hch hwf
            (by
              intro t s htc
              obtain ⟨ht, -⟩ := Prod.mk.injEq .. ▸ Option.some.inj htc
              subst ht
              exact ⟨hstop0, fun l2 hl2 => hbelow0 l2 (List.mem_cons_of_mem _ hl2)⟩)
            (by intro hcno; exact absurd hcno (by simp))
          refine ⟨ha, hb, ?_⟩
          intro t s htc
          obtain ⟨h1, h2⟩ := hc t s htc
          refine ⟨h1, ?_⟩
          rcases h2 with h2 | ⟨l2, hl2, rfl⟩
          · exact Or.inl h2
          · exact Or.inr ⟨l2, List.mem_cons_of_mem _ hl2, rfl⟩
        · rw [walkStates_cons_online_diff l rest acc t0 s0 hA hs]
          obtain ⟨hch2, hwf2, hstop2⟩ :=
            periods_append_inv acc t0 l.created s0 hch hwf hstop0 ht0l
          obtain ⟨ha, hb, hc⟩ := ih (some (l.created, l.state))
            (acc ++ [⟨t0, l.created, s0⟩]) hrest hch2 hwf2
            (by
              intro t s htc
              obtain ⟨ht, -⟩ := Prod.mk.injEq .. ▸ Option.some.inj htc
              subst ht
              exact ⟨hstop2, fun l2 hl2 => hd l2 hl2⟩)
            (by intro hcno; exact absurd hcno (by simp))
          refine ⟨ha, hb, ?_⟩
          intro t s htc
          obtain ⟨h1, h2⟩ := hc t s htc
          refine ⟨h1, Or.inr ?_⟩
          rcases h2 with h2 | ⟨l2, hl2, rfl⟩
          · obtain ⟨ht, -⟩ := Prod.mk.injEq .. ▸ Option.some.inj h2
            exact ⟨l, List.mem_cons_self _ _, ht.symm⟩
          · exact ⟨l2, List.mem_cons_of_mem _ hl2, rfl⟩
    · by_cases hB : l.state = "inactive"
      · cases cur with
        | none =>
          rw [walkStates_cons_inactive_none l rest acc hA hB]
          obtain ⟨ha, hb, hc⟩ := ih none acc hrest hch hwf
            (by intro t s htc; exact absurd htc (by simp))
            (by
              intro _ p hp l2 hl2
              exact hnone rfl p hp l2 (List.mem_cons_of_mem _ hl2))
          refine ⟨ha, hb, ?_⟩
          intro t s htc
          obtain ⟨h1, h2⟩ := hc t s htc
          refine ⟨h1, ?_⟩
          rcases h2 with h2 | ⟨l2, hl2, rfl⟩
          · exact Or.inl h2
          · exact Or.inr ⟨l2, List.mem_cons_of_mem _ hl2, rfl⟩
        | some tc =>
          obtain ⟨t0, s0⟩ := tc
          obtain ⟨hstop0, hbelow0⟩ := hcur t0 s0 rfl
          have ht0l : t0 ≤ l.created := hbelow0 l (List.mem_cons_self _ _)
          rw [walkStates_cons_inactive_some l rest acc t0 s0 hA hB]
          obtain ⟨hch2, hwf2, hstop2⟩ :=
            periods_append_inv acc t0 l.created s0 hch hwf hstop0 ht0l
          obtain ⟨ha, hb, hc⟩ := ih none (acc ++ [⟨t0, l.created, s0⟩]) hrest hch2 hwf2
            (by intro t s htc; exact absurd htc (by simp))
            (by
              intro _ p hp l2 hl2
              exact le_trans (hstop2 p hp) (hd l2 hl2))
          refine ⟨ha, hb, ?_⟩
          intro t s htc
          obtain ⟨h1, h2⟩ := hc t s htc
          refine ⟨h1, ?_⟩
          rcases h2 with h2 | ⟨l2, hl2, rfl⟩
          · exact absurd h2 (by simp)
          · exact Or.inr ⟨l2, List.mem_cons_of_mem _ hl2, rfl⟩
      · rw [walkStates_cons_other l rest acc cur hA hB]
        obtain ⟨ha, hb, hc⟩ := ih cur acc hrest hch hwf
          (by
            intro t s htc
            obtain ⟨h1, h2⟩ := hcur t s htc
            exact ⟨h1, fun l2 hl2 => h2 l2 (List.mem_cons_of_mem _ hl2)⟩)
          (by
            intro hcno p hp l2 hl2
            exact hnone hcno p hp l2 (List.mem_cons_of_mem _ hl2))
        refine ⟨ha, hb, ?_⟩
        intro t s htc
        obtain ⟨h1, h2⟩ := hc t s htc
        refine ⟨h1, ?_⟩
        rcases h2 with h2 | ⟨l2, hl2, rfl⟩
        · exact Or.inl h2
        · exact Or.inr ⟨l2, List.mem_cons_of_mem _ hl2, rfl⟩

/-- C7: the WAITING/ENGAGED periods reconstructed by
`calculate_driver_hours_from_states` are well-formed and chronologically
ordered without overlap (`p.stop ≤ q.start` for consecutive periods, so a
waiting/engaged transition closes one period and opens the next at the same
timestamp), for every input event list whose events do not postdate `now`;
concretely, the events waiting@100, engaged@700, offline@3700 yield the two
boundary-sharing periods (100,700) and (700,3700). -/
theorem C7_periods_ordered_nonoverlapping (uuid : String) (s e now : Int)
    (logs : List SLog) (h : ∀ l ∈ logs, l.created ≤ now) :
    (∀ p ∈ onlinePeriods uuid s e now logs, p.start ≤ p.stop) ∧
    List.Chain' (fun p q : Period => p.stop ≤ q.start)
      (onlinePeriods uuid s e now logs) ∧
    onlinePeriods "d" 0 10000 10000
        [⟨"d", "waiting_orders", 100⟩, ⟨"d", "has_order", 700⟩,
         ⟨"d", "inactive", 3700⟩]
      = [⟨100, 700, "waiting_orders"⟩, ⟨700, 3700, "has_order"⟩] := by
  have hmain : (∀ p ∈ onlinePeriods uuid s e now logs, p.start ≤ p.stop) ∧
      List.Chain' (fun p q : Period => p.stop ≤ q.start)
        (onlinePeriods uuid s e now logs) := by
    obtain ⟨ha, hb, hc⟩ := walkStates_inv
      (sortByKey (fun l => l.created)
        (logs.filter (fun l => l.driver == uuid && s ≤ l.created && l.created ≤ e)))
      none [] (sortByKey_pairwise _ _) List.chain'_nil (by simp)
      (by intro t s0 htc; exact absurd htc (by simp))
      (fun _ p hp => absurd hp (by simp))
    simp only [onlinePeriods]
    rcases hw : walkStates
      (sortByKey (fun l => l.created)
        (logs.filter (fun l => l.driver == uuid && s ≤ l.created && l.created ≤ e)))
      none [] with ⟨acc, cur⟩
    rw [hw] at ha hb hc
    cases cur with
    | none => exact ⟨hb, ha⟩
    | some tc =>
      obtain ⟨t, st⟩ := tc
      obtain ⟨hstops, horigin⟩ := hc t st rfl
      rcases horigin with hbad | ⟨l2, hl2, rfl⟩
      · exact absurd hbad (by simp)
      · have hl2f := (sortByKey_perm (fun l : SLog => l.created) _).mem_iff.mp hl2
        obtain ⟨hl2logs, hpred⟩ := List.mem_filter.mp hl2f
        simp only [Bool.and_eq_true, decide_eq_true_eq] at hpred
        have hte : l2.created ≤ min now e :=
          le_min (h l2 hl2logs) hpred.2
        obtain ⟨hch2, hwf2, -⟩ :=
          periods_append_inv acc l2.created (min now e) st ha hb hstops hte
        exact ⟨hwf2, hch2⟩
  exact ⟨hmain.1, hmain.2, by decide⟩

/-- C7 witness: the demo state logs. -/
theorem C7_periods_ordered_nonoverlapping_witness :
    (∀ p ∈ onlinePeriods "d" 0 10000 10000 demoLogs, p.start ≤ p.stop) ∧
    List.Chain' (fun p q : Period => p.stop ≤ q.start)
      (onlinePeriods "d" 0 10000 10000 demoLogs) ∧
    onlinePeriods "d" 0 10000 10000
        [⟨"d", "waiting_orders", 100⟩, ⟨"d", "has_order", 700⟩,
         ⟨"d", "inactive", 3700⟩]
      = [⟨100, 700, "waiting_orders"⟩, ⟨700, 3700, "has_order"⟩] :=
  C7_periods_ordered_nonoverlapping "d" 0 10000 10000 demoLogs (by decide)

/-- C8: `LastNDays(n)` resolves to `start = local_midnight(today) - (n-1)
days` and `end = now`; in particular n = 1 gives exactly
`[local_midnight(today), now)` and n = 2 gives
`[local_midnight(yesterday), now)`; and the start differs from the rolling
`now - n·24h` instant whenever `now` is a genuine instant of the civil day. -/
theorem C8_last_n_days_window (n : Int) (now : LocalTime)
    (h1 : now.sec < 86400) :
    lastNDaysWindow n now = (⟨now.day - (n - 1), 0⟩, now) ∧
    lastNDaysWindow 1 now = (⟨now.day, 0⟩, now) ∧
    lastNDaysWindow 2 now = (⟨now.day - 1, 0⟩, now) ∧
    (lastNDaysWindow n now).1.epoch ≠ now.epoch - n * 86400 := by
  refine ⟨rfl, ?_, ?_, ?_⟩
  · simp only [lastNDaysWindow, subDays, localMidnight]
    norm_num
  · simp only [lastNDaysWindow, subDays, localMidnight]
    norm_num
  · simp only [lastNDaysWindow, subDays, localMidnight, LocalTime.epoch]
    intro heq
    omega

/-- C8 witness: three days back from day 100 at 01:00. -/
theorem C8_last_n_days_window_witness :
    lastNDaysWindow 3 ⟨100, 3600⟩ = (⟨98, 0⟩, ⟨100, 3600⟩) ∧
    lastNDaysWindow 1 ⟨100, 3600⟩ = (⟨100, 0⟩, ⟨100, 3600⟩) ∧
    lastNDaysWindow 2 ⟨100, 3600⟩ = (⟨99, 0⟩, ⟨100, 3600⟩) ∧
    (lastNDaysWindow 3 ⟨100, 3600⟩).1.epoch ≠ (⟨100, 3600⟩ : LocalTime).epoch - 3 * 86400 :=
  C8_last_n_days_window 3 ⟨100, 3600⟩ (by norm_num)

theorem dateLt_next (d : Date) : dateLt d (nextCalendarDay d) := by
  unfold nextCalendarDay
  split_ifs with h1 h2
  · exact Or.inr ⟨rfl, Or.inr ⟨rfl, by dsimp only; omega⟩⟩
  · exact Or.inr ⟨rfl, Or.inl (by dsimp only; omega)⟩
  · exact Or.inl (by dsimp only; omega)

theorem dateLe_lt_trans {a b c : Date} (h1 : dateLe a b) (h2 : dateLt b c) :
    dateLt a c := by
  rcases h1 with h1 | rfl
  · unfold dateLt at *
    rcases h1 with h1 | ⟨e1, h1⟩ <;> rcases h2 with h2 | ⟨e2, h2⟩
    · exact Or.inl (by omega)
    · exact Or.inl (by omega)
    · exact Or.inl (by omega)
    · refine Or.inr ⟨by omega, ?_⟩
      rcases h1 with h1 | ⟨f1, h1⟩ <;> rcases h2 with h2 | ⟨f2, h2⟩
      · exact Or.inl (by omega)
      · exact Or.inl (by omega)
      · exact Or.inl (by omega)
      · exact Or.inr ⟨by omega, by omega⟩
  · exact h2

instance (now d : CivilDateTime) : Decidable (check_date_limits now d) := by
  unfold check_date_limits
  infer_instance

instance (v : ViewType) : Decidable (viewOk v) := by
  cases v <;> simp only [viewOk] <;> infer_instance

/-- C9 (amended): resolved windows are never clamped and no `InvalidWindow`
error exists; `check_date_limits` merely validates candidate dates against
`[COMPANY_START_DATE, now]`, and every resolved window satisfies
`start < end` by construction, so a `start ≥ end` failure cannot arise. -/
theorem C9_resolved_start_lt_end (v : ViewType) (hv : viewOk v) :
    dateLt (resolveWindow v).1 (resolveWindow v).2 := by
  cases v with
  | day d => exact dateLt_next d
  | week ws we => exact dateLe_lt_trans hv (dateLt_next we)
  | month y m =>
    simp only [resolveWindow]
    split_ifs with h
    · exact Or.inl (by dsimp only; omega)
    · exact Or.inr ⟨rfl, Or.inl (by dsimp only; omega)⟩
  | year y =>
    simp only [resolveWindow]
    exact Or.inl (by dsimp only; omega)
  | custom cs ce => exact dateLe_lt_trans hv (dateLt_next ce)

/-- C9 witness: the week Monday 2025-10-06 .. Sunday 2025-10-12. -/
theorem C9_resolved_start_lt_end_witness :
    dateLt (resolveWindow (.week ⟨2025, 10, 6⟩ ⟨2025, 10, 12⟩)).1
      (resolveWindow (.week ⟨2025, 10, 6⟩ ⟨2025, 10, 12⟩)).2 :=
  C9_resolved_start_lt_end _ (by decide)

/-- C9 counterexample: the day window for the (valid, `check_date_limits`-
accepted) current date 2025-10-12, queried at 01:00 local time, ends at the
next local midnight — after `now` — so resolved windows are not clamped to
`end ≤ now`. -/
theorem C9_counterexample :
    check_date_limits ⟨⟨2025, 10, 12⟩, 3600⟩ ⟨⟨2025, 10, 12⟩, 0⟩ ∧
    ¬ dtLe (resolvedEnd (.day ⟨2025, 10, 12⟩)) ⟨⟨2025, 10, 12⟩, 3600⟩ := by
  constructor <;> decide
